import Mathlib

/-!
Verification development for the MATLAB LSP server's structural extractor,
incremental symbol index, and result cache.

The Lean definitions below are a shallow embedding of the Python sources:
* `src/src/utils/symbol_table.py`  — `Symbol`, `SymbolTable` and its methods;
* `src/src/parser/models.py`       — the extractor's record types;
* `src/src/parser/matlab_parser.py` — `MatlabParser.parse_content`,
  `MatlabParser.parse_file` and the regex recognizers, translated to
  executable character-level scanners with the same matching behaviour;
* `src/src/matlab_lsp_server/utils/cache.py` — `CacheManager`.

Python dictionaries are modelled as association lists with unique keys kept
in insertion order (`dictGet`/`dictSet`/`dictDel`/`dictAppend` mirror
`d.get`, `d[k] = v`, `del d[k]`, and the `if k not in d: d[k] = []` /
`d[k].append(x)` idiom).  Python mutation is modelled by explicit state
passing; a Python method that can raise returns an extra `Bool` (`true`
means an exception escaped; the state component carries the mutations
performed before the raise, exactly as in CPython).  `time.time()` is an
explicit clock argument of type `ℚ`.
-/

namespace MatlabLsp

/-! ### Association-list dictionaries (Python `dict` semantics) -/

/-- Lookup of the first (and, for states built by the operations here, only)
binding of `k`; models `d.get(k)` / `d[k]`. -/
def dictGet {α : Type} : List (String × α) → String → Option α
  | [], _ => none
  | (k', v) :: rest, k => if k' = k then some v else dictGet rest k

/-- Models `d[k] = v`: replaces the value of an existing key in place,
otherwise appends the new binding at the end (insertion order). -/
def dictSet {α : Type} : List (String × α) → String → α → List (String × α)
  | [], k, v => [(k, v)]
  | (k', v') :: rest, k, v =>
    if k' = k then (k', v) :: rest else (k', v') :: dictSet rest k v

/-- Models `del d[k]`.  Python dict keys are unique, so deletion is modelled
as removing every binding of `k`. -/
def dictDel {α : Type} (d : List (String × α)) (k : String) : List (String × α) :=
  d.filter (fun kv => !(kv.1 = k : Bool))

/-- Models the Python idiom
`if k not in d: d[k] = []` followed by `d[k].append(v)`. -/
def dictAppend {α : Type} (d : List (String × List α)) (k : String) (v : α) :
    List (String × List α) :=
  match dictGet d k with
  | some l => dictSet d k (l ++ [v])
  | none => d ++ [(k, [v])]

/-! ### Character and string helpers (Python `str` / `re` semantics, ASCII) -/

/-- Python `\s` on ASCII text: space, tab, newline, carriage return,
vertical tab, form feed. -/
def isSpaceChar (c : Char) : Bool :=
  c = ' ' || c = '\t' || c = '\n' || c = '\r' || c = '\x0b' || c = '\x0c'

/-- Python `\w` on ASCII text: letters, digits, underscore. -/
def isWordChar (c : Char) : Bool :=
  c.isAlphanum || c = '_'

/-- Python `str.strip()` on a character list. -/
def pyStripList (l : List Char) : List Char :=
  ((l.dropWhile isSpaceChar).reverse.dropWhile isSpaceChar).reverse

/-- Python `str.strip()`. -/
def pyStrip (s : String) : String :=
  String.mk (pyStripList s.toList)

/-- `isLeadOf xs ys` is true when `xs` is a leading segment of `ys`. -/
def isLeadOf : List Char → List Char → Bool
  | [], _ => true
  | _ :: _, [] => false
  | x :: xs, y :: ys => x = y && isLeadOf xs ys

/-- Python `key.startswith(p)`. -/
def startsWithStr (s p : String) : Bool :=
  isLeadOf p.toList s.toList

/-- Python `str.lower()` on an ASCII character. -/
def toLowerChar (c : Char) : Char :=
  if 'A' ≤ c ∧ c ≤ 'Z' then Char.ofNat (c.toNat + 32) else c

/-- Python `str.lower()` (ASCII). -/
def pyLower (s : String) : List Char :=
  s.toList.map toLowerChar

/-- `occursIn needle hay` is Python `needle in hay` on strings (substring test). -/
def occursIn (needle : List Char) : List Char → Bool
  | [] => isLeadOf needle []
  | c :: t => isLeadOf needle (c :: t) || occursIn needle (t : List Char)

/-- Python `hay.find(needle)` (first index, or `none` for `-1`). -/
def pyFindAux (needle : List Char) : List Char → Nat → Option Nat
  | [], i => if isLeadOf needle [] then some i else none
  | c :: t, i => if isLeadOf needle (c :: t) then some i else pyFindAux needle t (i + 1)

/-- Python `hay.find(needle)` with the parser's `if pos == -1: pos = 0` fixup. -/
def pyFindOr0 (hay needle : List Char) : Nat :=
  (pyFindAux needle hay 0).getD 0

/-- Python `s.split(sep)` for a one-character separator. -/
def splitOnChar (sep : Char) : List Char → List (List Char)
  | [] => [[]]
  | c :: t =>
    if c = sep then [] :: splitOnChar sep t
    else
      match splitOnChar sep t with
      | [] => [[c]]
      | h :: r => (c :: h) :: r

/-- Python `", ".join(l)`. -/
def joinComma (l : List String) : String :=
  String.intercalate ", " l

/-- Python truthiness of an optional-string argument (`None` and `""` are falsy). -/
def truthy : Option String → Bool
  | none => false
  | some s => !(s = "" : Bool)

/-! ### Data model (`src/src/utils/symbol_table.py`, `src/src/parser/models.py`) -/

/-- A code symbol, mirroring the `Symbol` dataclass. -/
structure Symbol where
  name : String
  kind : String
  uri : String
  line : Nat := 1
  column : Nat := 1
  detail : String := ""
  documentation : Option String := none
  is_global : Bool := false
  scope : String := ""
deriving DecidableEq

/-- Mirrors the `VariableInfo` dataclass. -/
structure VariableInfo where
  name : String
  type : Option String := none
  line : Nat := 1
  column : Nat := 1
  is_global : Bool := false
  is_persistent : Bool := false
deriving DecidableEq

/-- Mirrors the `FunctionInfo` dataclass. -/
structure FunctionInfo where
  name : String
  line : Nat := 1
  column : Nat := 1
  end_line : Option Nat := none
  end_column : Option Nat := none
  input_args : List String := []
  output_args : List String := []
  is_nested : Bool := false
  parent_function : Option String := none
  parent_class : Option String := none
  docstring : Option String := none
  «variables» : List VariableInfo := []
deriving DecidableEq

/-- Mirrors the `ClassInfo` dataclass. -/
structure ClassInfo where
  name : String
  line : Nat := 1
  column : Nat := 1
  end_line : Option Nat := none
  end_column : Option Nat := none
  properties : List String := []
  methods : List FunctionInfo := []
  docstring : Option String := none
deriving DecidableEq

/-- Mirrors the `CommentInfo` dataclass. -/
structure CommentInfo where
  text : String
  line : Nat := 1
  column : Nat := 1
  is_block : Bool := false
  block_start_line : Option Nat := none
  block_end_line : Option Nat := none
deriving DecidableEq

/-- A Python value stored in the untyped `errors` list of `ParseResult`:
the code puts dicts of strings there, the spec speaks of plain strings. -/
inductive PyVal where
  | str : String → PyVal
  | dict : List (String × String) → PyVal
deriving DecidableEq

/-- True exactly for `PyVal.str` values. -/
def PyVal.isStr : PyVal → Bool
  | .str _ => true
  | .dict _ => false

/-- Mirrors the `ParseResult` dataclass (the spec's `ExtractionResult`). -/
structure ParseResult where
  file_uri : String
  file_path : String
  functions : List FunctionInfo := []
  «variables» : List VariableInfo := []
  classes : List ClassInfo := []
  comments : List CommentInfo := []
  errors : List PyVal := []
  raw_content : String := ""
  function_tree : List (String × List String) := []
deriving DecidableEq

/-! ### Symbol table (`SymbolTable` in `src/src/utils/symbol_table.py`) -/

/-- The three dictionaries owned by `SymbolTable.__init__`. -/
structure SymbolTable where
  symbols : List (String × List Symbol)
  file_hashes : List (String × String)
  uri_to_symbols : List (String × List Symbol)
deriving DecidableEq

/-- A freshly constructed `SymbolTable()`. -/
def SymbolTable.empty : SymbolTable :=
  { symbols := [], file_hashes := [], uri_to_symbols := [] }

/-- Models `SymbolTable._get_symbol_key`. -/
def get_symbol_key (name uri scope : String) : String :=
  uri ++ ":" ++ scope ++ ":" ++ name

/-- Models `SymbolTable._hash_content`, i.e.
`hashlib.md5(content.encode("utf-8")).hexdigest()`.  The digest is
abstracted as an injective function of the content: md5 collisions are not
modelled (the design notes accept the narrow collision risk as out of
scope), and every claim below uses the digest only through equality tests. -/
def hash_content (content : String) : String :=
  content

/-- Models `SymbolTable.add_symbol`: the Python method builds a `Symbol`
from its nine arguments and appends it to both indexes; here it receives
the built record directly. -/
def SymbolTable.add_symbol (st : SymbolTable) (s : Symbol) : SymbolTable :=
  { st with
    symbols := dictAppend st.symbols (get_symbol_key s.name s.uri s.scope) s,
    uri_to_symbols := dictAppend st.uri_to_symbols s.uri s }

/-- Models `SymbolTable.remove_symbols_by_uri` (returns the removed count).
Note the early return: when `uri` has no entry in `_uri_to_symbols` the
method returns 0 without touching `_file_hashes`. -/
def SymbolTable.remove_symbols_by_uri (st : SymbolTable) (uri : String) :
    SymbolTable × Nat :=
  match dictGet st.uri_to_symbols uri with
  | none => (st, 0)
  | some syms =>
    ({ symbols := st.symbols.filter (fun kv => !startsWithStr kv.1 (uri ++ ":")),
       file_hashes := dictDel st.file_hashes uri,
       uri_to_symbols := dictDel st.uri_to_symbols uri },
     syms.length)

/-- Models `SymbolTable.get_symbols_by_uri` (the spec's `SymbolsInFile`). -/
def SymbolTable.get_symbols_by_uri (st : SymbolTable) (uri : String) : List Symbol :=
  (dictGet st.uri_to_symbols uri).getD []

/-- Models `SymbolTable.search_symbols` (the spec's `FindByName`):
case-insensitive substring match, optional uri/kind filters with Python
truthiness on the optional arguments. -/
def SymbolTable.search_symbols (st : SymbolTable) (query : String)
    (uri : Option String) (kind : Option String) : List Symbol :=
  st.symbols.foldl
    (fun results kv =>
      results ++ kv.2.filter (fun s =>
        (!truthy uri || (s.uri = uri.getD "" : Bool))
        && (!truthy kind || (s.kind = kind.getD "" : Bool))
        && occursIn (pyLower query) (pyLower s.name)))
    []

/-- Models `SymbolTable.get_all_symbols` (the spec's `AllSymbols`). -/
def SymbolTable.get_all_symbols (st : SymbolTable) : List Symbol :=
  st.symbols.foldl (fun acc kv => acc ++ kv.2) []

/-- The function-symbol `detail` string built by
`SymbolTable.update_from_parse_result` for a `FunctionInfo`: the bracketed
output list is prepended only when there is more than one output. -/
def functionDetail (f : FunctionInfo) : String :=
  let d := "function " ++ f.name
  let d := if f.input_args.isEmpty then d else d ++ "(" ++ joinComma f.input_args ++ ")"
  if f.output_args.length > 1 then "[" ++ joinComma f.output_args ++ "] = " ++ d else d

/-- The method-symbol `detail` string built by
`SymbolTable.update_from_parse_result` for a class method: unlike
`functionDetail`, the output list is prepended whenever it is non-empty. -/
def methodDetail (f : FunctionInfo) : String :=
  let d := "function " ++ f.name
  let d := if f.input_args.isEmpty then d else d ++ "(" ++ joinComma f.input_args ++ ")"
  if f.output_args.isEmpty then d else "[" ++ joinComma f.output_args ++ "] = " ++ d

/-- The `scope` argument for a function symbol:
`func.parent_function if func.parent_function else "global"` (Python
truthiness sends both `None` and `""` to `"global"`). -/
def fnScope (f : FunctionInfo) : String :=
  match f.parent_function with
  | some p => if p = "" then "global" else p
  | none => "global"

/-- The function symbol inserted by `update_from_parse_result`. -/
def fnSymbol (uri : String) (f : FunctionInfo) : Symbol :=
  { name := f.name, kind := "function", uri := uri, line := f.line,
    column := f.column, detail := functionDetail f,
    documentation := f.docstring, is_global := !f.is_nested, scope := fnScope f }

/-- The class symbol inserted by `update_from_parse_result`. -/
def clsSymbol (uri : String) (c : ClassInfo) : Symbol :=
  { name := c.name, kind := "class", uri := uri, line := c.line,
    column := c.column, detail := "class " ++ c.name,
    documentation := c.docstring, is_global := true, scope := "global" }

/-- The method symbol inserted by `update_from_parse_result`. -/
def methodSymbol (uri : String) (cname : String) (m : FunctionInfo) : Symbol :=
  { name := m.name, kind := "method", uri := uri, line := m.line,
    column := m.column, detail := methodDetail m,
    documentation := m.docstring, is_global := false, scope := cname }

/-- The property symbol inserted by `update_from_parse_result`. -/
def propSymbol (uri : String) (c : ClassInfo) (p : String) : Symbol :=
  { name := p, kind := "property", uri := uri, line := c.line + 1,
    column := 1, detail := "property " ++ p,
    documentation := none, is_global := false, scope := c.name }

/-- The `for func in parse_result.functions` loop of
`update_from_parse_result`. -/
def insertFunctions (uri : String) (pr : ParseResult) (st : SymbolTable) : SymbolTable :=
  pr.functions.foldl (fun acc func => acc.add_symbol (fnSymbol uri func)) st

/-- The `for cls in parse_result.classes` loop of
`update_from_parse_result` (class symbol, then its methods). -/
def insertClasses (uri : String) (pr : ParseResult) (st : SymbolTable) : SymbolTable :=
  pr.classes.foldl
    (fun acc cls =>
      cls.methods.foldl (fun acc2 m => acc2.add_symbol (methodSymbol uri cls.name m))
        (acc.add_symbol (clsSymbol uri cls)))
    st

/-- The trailing `for prop in cls.properties` loop of
`update_from_parse_result`, which in the Python source sits *outside* the
class loop and therefore reads the loop variable `cls` left over from the
last iteration. -/
def insertProps (uri : String) (cls : ClassInfo) (st : SymbolTable) : SymbolTable :=
  cls.properties.foldl (fun acc p => acc.add_symbol (propSymbol uri cls p)) st

/-- The insertion block of `update_from_parse_result` after the hash store,
keyed by the final value of the class-loop variable: with an empty
`classes` list the name `cls` is unbound when the property loop starts, so
Python raises `NameError` (flag `true`) after the function and class
insertions have already happened; otherwise only the last class's
properties are inserted. -/
def insertPhase (uri : String) (pr : ParseResult) (st2 : SymbolTable) :
    SymbolTable × Bool :=
  match pr.classes.getLast? with
  | none => (insertClasses uri pr (insertFunctions uri pr st2), true)
  | some cls =>
    (insertProps uri cls (insertClasses uri pr (insertFunctions uri pr st2)), false)

/-- Models `SymbolTable.update_from_parse_result` (the spec's `UpsertFile`):
hash-gated skip, then removal of the old symbols, storing the new hash, and
the insertion phase.  The returned `Bool` is `true` when the Python method
raises the `NameError` described at `insertPhase`. -/
def SymbolTable.update_from_parse_result (st : SymbolTable)
    (uri content : String) (pr : ParseResult) : SymbolTable × Bool :=
  if dictGet st.file_hashes uri = some (hash_content content) then
    (st, false)
  else
    insertPhase uri pr
      { (st.remove_symbols_by_uri uri).1 with
        file_hashes :=
          dictSet ((st.remove_symbols_by_uri uri).1).file_hashes uri (hash_content content) }

/-- The full list of symbols that one accepted
`update_from_parse_result uri content pr` call inserts for `uri`, in
insertion order (functions, then per class the class symbol followed by its
method symbols, then the properties of the *last* class only). -/
def insertedSymbols (uri : String) (pr : ParseResult) : List Symbol :=
  pr.functions.map (fnSymbol uri)
  ++ (pr.classes.map (fun c => clsSymbol uri c :: c.methods.map (methodSymbol uri c.name))).flatten
  ++ (match pr.classes.getLast? with
      | none => []
      | some c => c.properties.map (propSymbol uri c))

/-! ### Structural extractor (`MatlabParser` in `src/src/parser/matlab_parser.py`)

Each regex recognizer is translated into an executable character scanner
with the same matching behaviour (anchored `re.match` on a single line;
greedy/lazy repetition and backtracking resolved by hand, which is noted
where it matters). -/

/-- Scanner for `COMMENT_PATTERN = ^(.*?)(?:;|%)([^%].*)$`: the lazy group
makes the match use the first `;` or `%` that is followed by at least one
character other than `%`.  Returns that separator's index and the
characters after it (group 2). -/
def findCommentSep : List Char → Nat → Option (Nat × List Char)
  | [], _ => none
  | [_], _ => none
  | c :: d :: rest, i =>
    if (c = ';' || c = '%') && !(d = '%' : Bool) then some (i, d :: rest)
    else findCommentSep (d :: rest) (i + 1)

/-- Models `MatlabParser._extract_line_comment`: a comment is recorded only
when the text after the separator is non-blank; `column` is
`match.start(2) + 1`, i.e. the 1-based position of the first character
*after* the separator. -/
def extract_line_comment (line : String) (line_num : Nat) : Option CommentInfo :=
  match findCommentSep line.toList 0 with
  | none => none
  | some (s, g2) =>
    let txt := pyStripList g2
    if txt.isEmpty then none
    else some { text := String.mk txt, line := line_num, column := s + 2, is_block := false }

/-- Models `MatlabParser._extract_classdef`
(`CLASSDEF_PATTERN = ^\s*classdef\s+(\w+)\s*\b`; the trailing `\s*\b` is
always satisfiable immediately after a maximal `\w+` run). -/
def extract_classdef (line : String) (line_num : Nat) : Option ClassInfo :=
  let l := line.toList.dropWhile isSpaceChar
  if isLeadOf "classdef".toList l then
    match l.drop 8 with
    | c :: rest =>
      if isSpaceChar c then
        let r := (c :: rest).dropWhile isSpaceChar
        let w := r.takeWhile isWordChar
        if w.isEmpty then none
        else
          some { name := String.mk w, line := line_num,
                 column := pyFindOr0 line.toList w + 1, properties := [], methods := [] }
      else none
    | [] => none
  else none

/-- The `\s*\(([^)]*)\)\s*$` tail of `FUNCTION_PATTERN`: optional spaces, an
input list up to the first `)`, then only trailing spaces. -/
def matchParenTail (r : List Char) : Option (List Char) :=
  match r.dropWhile isSpaceChar with
  | '(' :: r2 =>
    let ins := r2.takeWhile (fun c => !(c = ')' : Bool))
    match r2.dropWhile (fun c => !(c = ')' : Bool)) with
    | ')' :: r4 => if (r4.dropWhile isSpaceChar).isEmpty then some ins else none
    | _ => none
  | _ => none

/-- Scanner for
`FUNCTION_PATTERN = ^\s*function\s+(?:(\w+)\s*=\s*)?(\w+)\s*\(([^)]*)\)\s*$`
(`METHOD_PATTERN` is textually identical, so the method fallback in
`_extract_function` can never add a match).  Returns the optional single
output identifier, the name, and the raw input-list text.  Backtracking
note: `\w+` runs are maximal because the character after a shorter run
would still be a word character, which none of `\s* = (` accept. -/
def matchFunctionHeader (line : String) :
    Option (Option (List Char) × List Char × List Char) :=
  let l := line.toList.dropWhile isSpaceChar
  if isLeadOf "function".toList l then
    match l.drop 8 with
    | c :: rest =>
      if isSpaceChar c then
        let r := (c :: rest).dropWhile isSpaceChar
        let w1 := r.takeWhile isWordChar
        let r1 := r.dropWhile isWordChar
        if w1.isEmpty then none
        else
          let pathA :=
            match r1.dropWhile isSpaceChar with
            | '=' :: r3 =>
              let r4 := r3.dropWhile isSpaceChar
              let nm := r4.takeWhile isWordChar
              let r5 := r4.dropWhile isWordChar
              if nm.isEmpty then none
              else (matchParenTail r5).map (fun ins => (some w1, nm, ins))
            | _ => none
          match pathA with
          | some res => some res
          | none => (matchParenTail r1).map (fun ins => (none, w1, ins))
      else none
    | [] => none
  else none

/-- Models `MatlabParser._extract_function`: splits the argument lists on
commas with `str.strip` on each piece (an empty input text yields `[]`),
and sets `column` from `line.find(name)` — which can hit an earlier
occurrence of the name, e.g. the `f` of the keyword `function`. -/
def extract_function (line : String) (line_num : Nat) : Option FunctionInfo :=
  match matchFunctionHeader line with
  | none => none
  | some (outs, nm, ins) =>
    let output_args :=
      match outs with
      | none => []
      | some o => (splitOnChar ',' o).map (fun p => String.mk (pyStripList p))
    let input_args :=
      if ins.isEmpty then []
      else (splitOnChar ',' ins).map (fun p => String.mk (pyStripList p))
    some { name := String.mk nm, line := line_num,
           column := pyFindOr0 line.toList nm + 1,
           input_args := input_args, output_args := output_args,
           is_nested := false, parent_function := none }

/-- Models `MatlabParser._extract_property`
(`re.match(r"^\s*(\w+)", line)`): any line whose first non-blank character
starts a word yields that word — the unused `PROPERTY_PATTERN` marker
regex notwithstanding. -/
def extract_property (line : String) : Option String :=
  let w := (line.toList.dropWhile isSpaceChar).takeWhile isWordChar
  if w.isEmpty then none else some (String.mk w)

/-- Models `MatlabParser._extract_end`
(`FUNCTION_END_PATTERN = ^\s*end\s*($|%\s*\w+\s*$)`). -/
def extract_end (line : String) : Bool :=
  let l := line.toList.dropWhile isSpaceChar
  if isLeadOf "end".toList l then
    match (l.drop 3).dropWhile isSpaceChar with
    | [] => true
    | '%' :: r2 =>
      let r3 := r2.dropWhile isSpaceChar
      let w := r3.takeWhile isWordChar
      !w.isEmpty && ((r3.dropWhile isWordChar).dropWhile isSpaceChar).isEmpty
    | _ => false
  else false

/-- The tail of `VARIABLE_PATTERN` after the name:
`\s*(?:=\s*.+)?\s*(?:;.*)?$`.  After optional spaces the rest must be
empty, start with `=` followed by at least one character (`.+` then
absorbs everything), or start with `;`. -/
def varTailOk (r : List Char) : Bool :=
  match r.dropWhile isSpaceChar with
  | [] => true
  | '=' :: rest => !rest.isEmpty
  | ';' :: _ => true
  | _ => false

/-- Scanner for the optional `(?:(global|persistent)\s+)?` modifier of
`VARIABLE_PATTERN`: the literal followed by at least one space. -/
def varModifier (l : List Char) : Option (String × List Char) :=
  if isLeadOf "global".toList l then
    match l.drop 6 with
    | c :: rest => if isSpaceChar c then some ("global", (c :: rest).dropWhile isSpaceChar) else none
    | [] => none
  else if isLeadOf "persistent".toList l then
    match l.drop 10 with
    | c :: rest => if isSpaceChar c then some ("persistent", (c :: rest).dropWhile isSpaceChar) else none
    | [] => none
  else none

/-- Models `MatlabParser._extract_variable`
(`VARIABLE_PATTERN = ^\s*(?:(global|persistent)\s+)?(\w+)\s*(?:=\s*.+)?\s*(?:;.*)?$`).
When the modifier path fails the regex backtracks to matching the modifier
word itself as the variable name. -/
def extract_variable (line : String) (line_num : Nat) : Option VariableInfo :=
  let l := line.toList.dropWhile isSpaceChar
  let mkVar : Option String → List Char → VariableInfo := fun m nm =>
    { name := String.mk nm, line := line_num,
      column := pyFindOr0 line.toList nm + 1,
      is_global := m = some "global", is_persistent := m = some "persistent" }
  let noMod : Option VariableInfo :=
    let nm := l.takeWhile isWordChar
    if !nm.isEmpty && varTailOk (l.dropWhile isWordChar) then some (mkVar none nm) else none
  match varModifier l with
  | some (m, r) =>
    let nm := r.takeWhile isWordChar
    if !nm.isEmpty && varTailOk (r.dropWhile isWordChar) then some (mkVar (some m) nm)
    else noMod
  | none => noMod

/-! #### Block comments -/

/-- First index of the two-character sequence `}%` (the end of
`BLOCK_COMMENT_PATTERN`'s lazy body). -/
def findClose : List Char → Option Nat
  | '}' :: '%' :: _ => some 0
  | _ :: t => (findClose t).map (· + 1)
  | [] => none

/-- Attempts `BLOCK_COMMENT_PATTERN = %\s*\{\s*(.*?)\s*\}%` (DOTALL) at the
head of `s`.  Laziness makes the match end at the first `}%` after the
opening `%…{`; since the recorded text is `group(1).strip()`, stripping the
whole span between `{` and `}%` is equivalent to the regex's own
whitespace splitting.  Returns the total match length and the text. -/
def tryBlockMatch (s : List Char) : Option (Nat × String) :=
  match s with
  | '%' :: t =>
    let w := t.takeWhile isSpaceChar
    match t.dropWhile isSpaceChar with
    | '{' :: body =>
      match findClose body with
      | some r => some (1 + w.length + 1 + r + 2, String.mk (pyStripList (body.take r)))
      | none => none
    | _ => none
  | _ => none

/-- Left-to-right non-overlapping scan for block comments, as
`re.finditer`: on a match, scanning resumes after the match; otherwise it
advances one character.  Returns (start, end-exclusive, stripped text)
triples.  The fuel starts at the text length and never runs out before the
characters do. -/
def blockScanAux : Nat → List Char → Nat → List (Nat × Nat × String)
  | 0, _, _ => []
  | _, [], _ => []
  | fuel + 1, c :: rest, p =>
    match tryBlockMatch (c :: rest) with
    | some (len, txt) =>
      (p, p + len, txt) :: blockScanAux fuel (rest.drop (len - 1)) (p + len)
    | none => blockScanAux fuel rest (p + 1)

/-- `BLOCK_COMMENT_PATTERN.sub("", content)`: the same scan, keeping the
characters outside the matches. -/
def blockSubAux : Nat → List Char → List Char
  | 0, s => s
  | _, [] => []
  | fuel + 1, c :: rest =>
    match tryBlockMatch (c :: rest) with
    | some (len, _) => blockSubAux fuel (rest.drop (len - 1))
    | none => c :: blockSubAux fuel rest

/-- The working copy of the text with all block comments removed. -/
def blockCommentSub (content : String) : String :=
  String.mk (blockSubAux content.toList.length content.toList)

/-- Number of newline characters in a character list. -/
def countNl (l : List Char) : Nat :=
  (l.filter (fun c => c = '\n')).length

/-- Index of the last newline, if any (Python `content.rfind("\n", 0, i)`
applied to the prefix before `i`). -/
def rfindNlAux : List Char → Nat → Option Nat → Option Nat
  | [], _, acc => acc
  | c :: t, i, acc => rfindNlAux t (i + 1) (if c = '\n' then some i else acc)

/-- Index of the last newline in a character list. -/
def rfindNl (l : List Char) : Option Nat :=
  rfindNlAux l 0 none

/-- Models `MatlabParser._extract_block_comments`, including its column
convention: `start - line_start` when a preceding newline exists (the
newline itself occupying column 0 of the offset), else `start + 1`. -/
def extract_block_comments (content : String) : List CommentInfo :=
  let cs := content.toList
  (blockScanAux cs.length cs 0).map (fun m =>
    let pre := cs.take m.1
    let line_num := countNl pre + 1
    { text := m.2.2, line := line_num,
      column := match rfindNl pre with
                | some ls => m.1 - ls
                | none => m.1 + 1,
      is_block := true,
      block_start_line := some line_num,
      block_end_line := some (countNl (cs.take m.2.1) + 1) })

/-! #### The line walk of `MatlabParser.parse_content` -/

/-- The mutable parser fields plus the accumulating result lists.
`current_class` and `class_stack` hold indices into `classes`, because in
Python they alias the very `ClassInfo` objects stored in the result list
and `properties.append` mutates them in place. -/
structure PState where
  nesting_level : Nat
  current_function : Option FunctionInfo
  current_class : Option Nat
  function_stack : List FunctionInfo
  class_stack : List Nat
  functions : List FunctionInfo
  «variables» : List VariableInfo
  comments : List CommentInfo
  classes : List ClassInfo
  function_tree : List (String × List String)
deriving DecidableEq

/-- In-place update of `classes[i]` (Python object mutation through the
`current_class` alias). -/
def listModify {α : Type} : List α → Nat → (α → α) → List α
  | [], _, _ => []
  | x :: xs, 0, f => f x :: xs
  | x :: xs, n + 1, f => x :: listModify xs n f

/-- Name of `classes[idx]` (the index is always valid in reachable states). -/
def getClassName (ps : PState) (idx : Nat) : String :=
  match ps.classes[idx]? with
  | some c => c.name
  | none => ""

/-- The recognizer chain of the per-line loop body after comment stripping:
classdef, then function header, then — whenever `current_class` is set —
the property collector (note that this branch swallows *every* remaining
line while inside a class, including `end` lines, which therefore never
reach the end-marker branch), then the end marker (which decrements
`_nesting_level` but pops neither stack, restoring `current_function` /
`current_class` from the still-full stack tops), then the variable
recognizer. -/
def processCore (ps : PState) (line : String) (line_num : Nat) : PState :=
  match extract_classdef line line_num with
  | some cm =>
    let idx := ps.classes.length
    { ps with classes := ps.classes ++ [cm],
              class_stack := ps.class_stack ++ [idx],
              current_class := some idx,
              nesting_level := ps.nesting_level + 1 }
  | none =>
  match extract_function line line_num with
  | some fm0 =>
    let fm1 :=
      match ps.current_class with
      | some idx => { fm0 with parent_class := some (getClassName ps idx) }
      | none => fm0
    let fm :=
      match ps.current_function with
      | some cf => { fm1 with is_nested := true, parent_function := some cf.name }
      | none => fm1
    let tree :=
      match ps.current_function with
      | some cf => dictAppend ps.function_tree cf.name fm.name
      | none => ps.function_tree
    { ps with functions := ps.functions ++ [fm],
              function_tree := tree,
              function_stack := ps.function_stack ++ [fm],
              current_function :=
                if ps.nesting_level = 0 ∨ ps.current_class = none
                then some fm else ps.current_function,
              nesting_level := ps.nesting_level + 1 }
  | none =>
  match ps.current_class with
  | some idx =>
    (match extract_property line with
     | some p =>
       { ps with classes :=
           listModify ps.classes idx (fun c => { c with properties := c.properties ++ [p] }) }
     | none => ps)
  | none =>
  if extract_end line then
    if 0 < ps.nesting_level then
      let n := ps.nesting_level - 1
      { ps with nesting_level := n,
                current_class :=
                  if !ps.class_stack.isEmpty ∧ n = ps.class_stack.length - 1
                  then ps.class_stack.getLast?
                  else if n = 0 then none else ps.current_class,
                current_function :=
                  if !ps.function_stack.isEmpty ∧ n = ps.function_stack.length - 1
                  then ps.function_stack.getLast?
                  else if n = 0 then none else ps.current_function }
    else ps
  else
    if ps.nesting_level = 0 ∨ ps.current_function ≠ none then
      match extract_variable line line_num with
      | some v =>
        if ps.nesting_level = 0 ∨ v.is_global ∨ v.is_persistent
        then { ps with «variables» := ps.«variables» ++ [v] }
        else ps
      | none => ps
    else ps

/-- One iteration of the line loop: skip blank lines, record and strip a
line comment (keeping the separator character itself, as
`line[: comment.column - 1]` does), re-check for blankness only after a
comment was stripped, then run the recognizer chain. -/
def processLine (ps : PState) (line0 : String) (line_num : Nat) : PState :=
  if pyStrip line0 = "" then ps
  else
    match extract_line_comment line0 line_num with
    | some c =>
      let ps1 := { ps with comments := ps.comments ++ [c] }
      let line := String.mk (line0.toList.take (c.column - 1))
      if pyStrip line = "" then ps1 else processCore ps1 line line_num
    | none => processCore ps line0 line_num

/-- Models `MatlabParser.parse_content` (the spec's `extract`): block
comments are collected and removed from the whole text first, then the
line walk runs with freshly reset state.  The `errors` list is never
appended to, so it is always `[]`. -/
def parse_content (content : String) (file_uri file_path : String) : ParseResult :=
  let block_comments := extract_block_comments content
  let lines := (splitOnChar '\n' (blockCommentSub content).toList).map String.mk
  let init : PState :=
    { nesting_level := 0, current_function := none, current_class := none,
      function_stack := [], class_stack := [], functions := [],
      «variables» := [], comments := block_comments, classes := [],
      function_tree := [] }
  let fin := (lines.foldl (fun p line => (processLine p.1 line p.2, p.2 + 1)) (init, 1)).1
  { file_uri := file_uri, file_path := file_path,
    functions := fin.functions, «variables» := fin.«variables»,
    classes := fin.classes, comments := fin.comments,
    errors := [], raw_content := content, function_tree := fin.function_tree }

/-- The Python message of the `NameError` raised by
`update_from_parse_result` when `parse_result.classes` is empty. -/
def nameErrorCls : String :=
  "name 'cls' is not defined"

/-- Models `MatlabParser.parse_file`.  The file read is an explicit
`Except` argument (`Except.error e` models an exception with message `e`).
On a read failure the result carries a single *dict* entry
`{"error": "Failed to read file: " ++ e}` in `errors` and is otherwise
empty.  On success the content is parsed; since `parse_content` never
records errors, the symbol table is then updated, and an exception from
the update (the `NameError` for a class-less file) is caught and appended
to `errors` as another dict — after the update's partial mutations. -/
def parse_file (st : SymbolTable) (readResult : Except String String)
    (file_uri file_path : String) : ParseResult × SymbolTable :=
  match readResult with
  | .error e =>
    ({ file_uri := file_uri, file_path := file_path, raw_content := "",
       errors := [PyVal.dict [("error", "Failed to read file: " ++ e)]] }, st)
  | .ok content =>
    let result := parse_content content file_uri file_path
    if result.errors.isEmpty then
      let upd := st.update_from_parse_result file_uri content result
      if upd.2 then
        ({ result with errors :=
             result.errors ++ [PyVal.dict [("error", "Failed to update symbol table: " ++ nameErrorCls)]] },
         upd.1)
      else (result, upd.1)
    else (result, st)

/-! ### Result cache (`CacheManager` in `src/src/matlab_lsp_server/utils/cache.py`)

Cached values are modelled as strings (`str(value)` is then the identity
and `None` values do not arise); `time.time()` is an explicit rational
clock argument. -/

/-- Mirrors the `CacheEntry` dataclass. -/
structure CacheEntry where
  value : String
  timestamp : ℚ
  ttl : ℚ := 300
  size : Nat := 0
deriving DecidableEq

/-- The cache dictionary plus the `_stats` counters. -/
structure CacheManager where
  cache : List (String × CacheEntry)
  hits : Nat
  misses : Nat
  evictions : Nat
deriving DecidableEq

/-- A freshly constructed `CacheManager()`. -/
def CacheManager.empty : CacheManager :=
  { cache := [], hits := 0, misses := 0, evictions := 0 }

/-- `CacheManager.PARSE_CACHE_TTL` (seconds). -/
def PARSE_CACHE_TTL : ℚ := 300

/-- Models `CacheManager._is_expired`: strictly older than its ttl. -/
def is_expired (now : ℚ) (e : CacheEntry) : Bool :=
  now - e.timestamp > e.ttl

/-- Models `CacheManager.invalidate`. -/
def CacheManager.invalidate (cm : CacheManager) (key : String) : CacheManager × Bool :=
  if (dictGet cm.cache key).isSome then
    ({ cm with cache := dictDel cm.cache key, evictions := cm.evictions + 1 }, true)
  else (cm, false)

/-- Models `CacheManager.get` at clock time `now`: a missing key is a miss;
an expired entry is invalidated on touch and counted as a miss; otherwise
the value is returned as a hit.  There is no sweep anywhere else. -/
def CacheManager.get (cm : CacheManager) (now : ℚ) (key : String) :
    CacheManager × Option String :=
  match dictGet cm.cache key with
  | none => ({ cm with misses := cm.misses + 1 }, none)
  | some entry =>
    if is_expired now entry then
      let cm1 := (cm.invalidate key).1
      ({ cm1 with misses := cm1.misses + 1 }, none)
    else ({ cm with hits := cm.hits + 1 }, some entry.value)

/-- Models `CacheManager.set` at clock time `now` (a `none` ttl selects the
default; the entry size is `len(str(value))`). -/
def CacheManager.set (cm : CacheManager) (now : ℚ) (key value : String)
    (ttl : Option ℚ) : CacheManager :=
  let t := ttl.getD PARSE_CACHE_TTL
  { cm with cache :=
      dictSet cm.cache key { value := value, timestamp := now, ttl := t, size := value.length } }

/-! ### Spec-side reference definitions and concrete fixtures -/

/-- Applies a sequence of `UpsertFile` calls `(uri, content, extraction)`
to a table. -/
def applyUpserts (st : SymbolTable) (calls : List (String × String × ParseResult)) :
    SymbolTable :=
  calls.foldl (fun acc c => (acc.update_from_parse_result c.1 c.2.1 c.2.2).1) st

/-- Spec-side tracking of one file's stored digest and most recently
accepted extraction: per the spec, a call for this `uri` is accepted
exactly when its content digest differs from the stored one. -/
def acceptedStep (uri : String) (p : Option String × Option ParseResult)
    (c : String × String × ParseResult) : Option String × Option ParseResult :=
  if c.1 = uri then
    if p.1 = some (hash_content c.2.1) then p
    else (some (hash_content c.2.1), some c.2.2)
  else p

/-- Folds `acceptedStep` from an arbitrary starting pair. -/
def lastAcceptedFrom (p : Option String × Option ParseResult)
    (calls : List (String × String × ParseResult)) (uri : String) :
    Option String × Option ParseResult :=
  calls.foldl (acceptedStep uri) p

/-- The stored digest and most recently accepted extraction for `uri`
after a call sequence starting from nothing. -/
def lastAccepted (calls : List (String × String × ParseResult)) (uri : String) :
    Option String × Option ParseResult :=
  lastAcceptedFrom (none, none) calls uri

/-- The symbols the spec expects `SymbolsInFile uri` to hold after a call
sequence: those derived from the most recently accepted extraction, or
none. -/
def lastAcceptedSymbols (calls : List (String × String × ParseResult)) (uri : String) :
    List Symbol :=
  match (lastAccepted calls uri).2 with
  | none => []
  | some pr => insertedSymbols uri pr

/-- The induction invariant tying a table's observable state for one `uri`
to the spec-side tracking pair. -/
def TracksUri (st : SymbolTable) (uri : String) (p : Option String × Option ParseResult) :
    Prop :=
  dictGet st.file_hashes uri = p.1
  ∧ st.get_symbols_by_uri uri
      = match p.2 with
        | none => []
        | some pr => insertedSymbols uri pr

/-- Structural invariant of `SymbolTable` states built through the API:
every entry of the name index `_symbols` is keyed by
`uri ++ ":" ++ scope ++ ":" ++ name` of the symbols it holds, and every
indexed symbol's uri has an entry in the uri index. -/
def SymbolInv (st : SymbolTable) : Prop :=
  (∀ kv ∈ st.symbols, ∀ s ∈ kv.2, kv.1 = s.uri ++ ":" ++ s.scope ++ ":" ++ s.name)
  ∧ (∀ kv ∈ st.symbols, ∀ s ∈ kv.2, dictGet st.uri_to_symbols s.uri ≠ none)

/-- The amended function-symbol detail format, written from the corrected
spec wording: the text is `function <name>`, followed by the
comma-and-space-joined input list in parentheses when inputs exist, and
prefixed by the bracketed joined output list and an equals sign only when
the record has two or more outputs. -/
def amendedFunctionDetailSpec (f : FunctionInfo) : String :=
  (if 2 ≤ f.output_args.length
   then "[" ++ String.intercalate ", " f.output_args ++ "] = "
   else "")
  ++ ("function " ++ f.name
      ++ (if f.input_args.isEmpty then ""
          else "(" ++ String.intercalate ", " f.input_args ++ ")"))

/-- Fixture: an extraction with one qualifying (global) variable record
and one class. -/
def prVar : ParseResult :=
  { file_uri := "file:///v.m", file_path := "v.m",
    «variables» := [ { name := "counter", is_global := true } ],
    classes := [ { name := "Helper" } ] }

/-- Fixture: an extraction with two classes, of which only the first has a
property. -/
def prTwoClasses : ParseResult :=
  { file_uri := "file:///two.m", file_path := "two.m",
    classes := [ { name := "Foo", line := 1, column := 10, properties := ["Bar"] },
                 { name := "Baz", line := 5, column := 10 } ] }

/-- Fixture: the round-trip function record of spec §8. -/
def prAdd : ParseResult :=
  { file_uri := "file:///add.m", file_path := "add.m",
    functions := [ { name := "add", input_args := ["x", "y"], output_args := ["y"] } ] }

/-- Fixture: two consecutive top-level function definitions, each closed
by an `end` line. -/
def twoFnsSrc : String :=
  "function y = f(x)\nend\nfunction z = g(w)\nend"

/-- Fixture: a class with one property block. -/
def classSrc : String :=
  "classdef Foo\n    properties\n        Bar\n    end\nend"

/-- Fixture: an extraction with no functions and no classes (so an
accepted upsert stores the hash, inserts nothing, and raises). -/
def prNoSymbols : ParseResult :=
  { file_uri := "file:///z.m", file_path := "z.m" }

/-- Fixture: two small distinct extractions for the replacement witness. -/
def prW1 : ParseResult :=
  { file_uri := "file:///w.m", file_path := "w.m",
    functions := [ { name := "first" } ] }

/-- Fixture: second extraction for the replacement witness. -/
def prW2 : ParseResult :=
  { file_uri := "file:///w.m", file_path := "w.m",
    functions := [ { name := "second" } ],
    classes := [ { name := "K" } ] }

/-- Fixture: a table holding one symbol, for the removal witness. -/
def stW8 : SymbolTable :=
  SymbolTable.empty.add_symbol
    { name := "f1", kind := "function", uri := "file:///w8.m", line := 1,
      column := 1, detail := "", documentation := none, is_global := true,
      scope := "global" }

/-! ### Dictionary lemmas -/

theorem dictGet_dictSet_self {α : Type} (d : List (String × α)) (k : String) (v : α) :
    dictGet (dictSet d k v) k = some v := by
  induction d with
  | nil => simp [dictSet, dictGet]
  | cons kv rest ih =>
    obtain ⟨k', v'⟩ := kv
    by_cases h : k' = k
    · simp [dictSet, dictGet, h]
    · simp [dictSet, dictGet, h, ih]

theorem dictGet_dictSet_ne {α : Type} (d : List (String × α)) (k : String) (v : α)
    (u : String) (h : u ≠ k) : dictGet (dictSet d k v) u = dictGet d u := by
  have h' : ¬ k = u := fun hk => h hk.symm
  induction d with
  | nil => simp [dictSet, dictGet, h']
  | cons kv rest ih =>
    obtain ⟨k', v'⟩ := kv
    by_cases hk : k' = k
    · subst hk
      simp [dictSet, dictGet, h']
    · by_cases hu : k' = u <;> simp [dictSet, dictGet, hk, hu, ih, h]

theorem dictGet_dictDel_self {α : Type} (d : List (String × α)) (k : String) :
    dictGet (dictDel d k) k = none := by
  induction d with
  | nil => rfl
  | cons kv rest ih =>
    obtain ⟨k', v'⟩ := kv
    by_cases h : k' = k
    · simpa [dictDel, List.filter_cons, h] using ih
    · simpa [dictDel, List.filter_cons, dictGet, h] using ih

theorem dictGet_dictDel_ne {α : Type} (d : List (String × α)) (k u : String)
    (h : u ≠ k) : dictGet (dictDel d k) u = dictGet d u := by
  have h' : ¬ k = u := fun hk => h hk.symm
  induction d with
  | nil => rfl
  | cons kv rest ih =>
    obtain ⟨k', v'⟩ := kv
    by_cases hk : k' = k
    · subst hk
      simpa [dictDel, List.filter_cons, dictGet, h'] using ih
    · by_cases hu : k' = u
      · simp [dictDel, List.filter_cons, dictGet, hk, hu, h]
      · simpa [dictDel, List.filter_cons, dictGet, hk, hu, h] using ih

theorem dictGet_append {α : Type} (d e : List (String × α)) (k : String) :
    dictGet (d ++ e) k
      = match dictGet d k with
        | some v => some v
        | none => dictGet e k := by
  induction d with
  | nil => simp [dictGet]
  | cons kv rest ih =>
    obtain ⟨k', v'⟩ := kv
    by_cases h : k' = k <;> simp [dictGet, h, ih]

theorem dictGet_dictAppend_self {α : Type} (d : List (String × List α)) (k : String)
    (v : α) : dictGet (dictAppend d k v) k = some ((dictGet d k).getD [] ++ [v]) := by
  unfold dictAppend
  cases h : dictGet d k with
  | some l => simp [h, dictGet_dictSet_self]
  | none => simp [h, dictGet_append, dictGet]

theorem dictGet_dictAppend_ne {α : Type} (d : List (String × List α)) (k : String)
    (v : α) (u : String) (h : u ≠ k) : dictGet (dictAppend d k v) u = dictGet d u := by
  unfold dictAppend
  cases hg : dictGet d k with
  | some l => simp [dictGet_dictSet_ne _ _ _ _ h]
  | none =>
    have h' : ¬ k = u := fun hk => h hk.symm
    rw [dictGet_append]
    cases hu : dictGet d u <;> simp [dictGet, h']

/-! ### String and list helper lemmas -/

theorem strToList_append (a b : String) : (a ++ b).toList = a.toList ++ b.toList := by
  cases a; cases b; rfl

theorem isLeadOf_refl_append (xs ys : List Char) : isLeadOf xs (xs ++ ys) = true := by
  induction xs with
  | nil => rfl
  | cons x t ih => simp [isLeadOf, ih]

theorem startsWithStr_append (a b : String) : startsWithStr (a ++ b) a = true := by
  unfold startsWithStr
  rw [strToList_append]
  exact isLeadOf_refl_append _ _

theorem mem_foldl_append {α β : Type} (g : α → List β) (l : List α) :
    ∀ (acc : List β) (b : β),
      b ∈ l.foldl (fun r x => r ++ g x) acc ↔ b ∈ acc ∨ ∃ x ∈ l, b ∈ g x := by
  induction l with
  | nil => intro acc b; simp
  | cons x t ih =>
    intro acc b
    rw [List.foldl_cons, ih]
    simp only [List.mem_append, List.mem_cons]
    constructor
    · rintro ((h | h) | ⟨y, hy, hb⟩)
      · exact Or.inl h
      · exact Or.inr ⟨x, Or.inl rfl, h⟩
      · exact Or.inr ⟨y, Or.inr hy, hb⟩
    · rintro (h | ⟨y, (rfl | hy), hb⟩)
      · exact Or.inl (Or.inl h)
      · exact Or.inl (Or.inr hb)
      · exact Or.inr ⟨y, hy, hb⟩

theorem flatten_map_singleton {α β : Type} (g : α → β) (l : List α) :
    (l.map (fun a => [g a])).flatten = l.map g := by
  induction l <;> simp [*]

/-! ### Symbol table lemmas -/

theorem get_symbols_by_uri_add (st : SymbolTable) (s : Symbol) (u : String) :
    (st.add_symbol s).get_symbols_by_uri u
      = st.get_symbols_by_uri u ++ (if u = s.uri then [s] else []) := by
  unfold SymbolTable.add_symbol SymbolTable.get_symbols_by_uri
  by_cases h : u = s.uri
  · subst h
    simp [dictGet_dictAppend_self]
  · simp [dictGet_dictAppend_ne _ _ _ _ h, h]

theorem file_hashes_add (st : SymbolTable) (s : Symbol) :
    (st.add_symbol s).file_hashes = st.file_hashes := rfl

theorem foldl_fix {α β γ : Type} (f : β → α → β) (proj : β → γ)
    (h : ∀ b a, proj (f b a) = proj b) (l : List α) :
    ∀ b, proj (l.foldl f b) = proj b := by
  induction l with
  | nil => intro b; rfl
  | cons a t ih => intro b; rw [List.foldl_cons, ih, h]

theorem get_foldl_accum {α : Type} (f : SymbolTable → α → SymbolTable)
    (out : α → List Symbol) (u : String)
    (h : ∀ st a, (f st a).get_symbols_by_uri u = st.get_symbols_by_uri u ++ out a)
    (l : List α) :
    ∀ st, (l.foldl f st).get_symbols_by_uri u
      = st.get_symbols_by_uri u ++ (l.map out).flatten := by
  induction l with
  | nil => intro st; simp
  | cons a t ih => intro st; rw [List.foldl_cons, ih, h]; simp

theorem remove_get_self (st : SymbolTable) (uri : String) :
    ((st.remove_symbols_by_uri uri).1).get_symbols_by_uri uri = [] := by
  unfold SymbolTable.remove_symbols_by_uri
  cases h : dictGet st.uri_to_symbols uri with
  | none => simp [SymbolTable.get_symbols_by_uri, h]
  | some l => simp [SymbolTable.get_symbols_by_uri, dictGet_dictDel_self]

theorem remove_get_ne (st : SymbolTable) (uri u : String) (hu : u ≠ uri) :
    ((st.remove_symbols_by_uri uri).1).get_symbols_by_uri u = st.get_symbols_by_uri u := by
  unfold SymbolTable.remove_symbols_by_uri
  cases h : dictGet st.uri_to_symbols uri with
  | none => rfl
  | some l => simp [SymbolTable.get_symbols_by_uri, dictGet_dictDel_ne _ _ _ hu]

theorem remove_hash_ne (st : SymbolTable) (uri u : String) (hu : u ≠ uri) :
    dictGet ((st.remove_symbols_by_uri uri).1).file_hashes u = dictGet st.file_hashes u := by
  unfold SymbolTable.remove_symbols_by_uri
  cases h : dictGet st.uri_to_symbols uri with
  | none => rfl
  | some l => simp [dictGet_dictDel_ne _ _ _ hu]

theorem flatten_map_nil {α β : Type} (l : List α) :
    (l.map (fun _ => ([] : List β))).flatten = [] := by
  induction l <;> simp [*]

theorem insertFunctions_get (uri u : String) (pr : ParseResult) (st : SymbolTable) :
    (insertFunctions uri pr st).get_symbols_by_uri u
      = st.get_symbols_by_uri u
        ++ (if u = uri then pr.functions.map (fnSymbol uri) else []) := by
  by_cases h : u = uri
  · subst h
    have hstep : ∀ (st' : SymbolTable) (a : FunctionInfo),
        (st'.add_symbol (fnSymbol u a)).get_symbols_by_uri u
          = st'.get_symbols_by_uri u ++ [fnSymbol u a] := by
      intro st' a
      rw [get_symbols_by_uri_add]
      simp [fnSymbol]
    rw [insertFunctions, get_foldl_accum _ _ u hstep pr.functions st, flatten_map_singleton]
    simp
  · have hstep : ∀ (st' : SymbolTable) (a : FunctionInfo),
        (st'.add_symbol (fnSymbol uri a)).get_symbols_by_uri u
          = st'.get_symbols_by_uri u ++ [] := by
      intro st' a
      rw [get_symbols_by_uri_add]
      simp [fnSymbol, h]
    rw [insertFunctions, get_foldl_accum _ _ u hstep pr.functions st, flatten_map_nil]
    simp [h]

theorem method_fold_get (uri cname u : String) (l : List FunctionInfo) (st : SymbolTable) :
    (l.foldl (fun acc m => acc.add_symbol (methodSymbol uri cname m)) st).get_symbols_by_uri u
      = st.get_symbols_by_uri u
        ++ (if u = uri then l.map (methodSymbol uri cname) else []) := by
  by_cases h : u = uri
  · subst h
    have hstep : ∀ (st' : SymbolTable) (a : FunctionInfo),
        (st'.add_symbol (methodSymbol u cname a)).get_symbols_by_uri u
          = st'.get_symbols_by_uri u ++ [methodSymbol u cname a] := by
      intro st' a
      rw [get_symbols_by_uri_add]
      simp [methodSymbol]
    rw [get_foldl_accum _ _ u hstep l st, flatten_map_singleton]
    simp
  · have hstep : ∀ (st' : SymbolTable) (a : FunctionInfo),
        (st'.add_symbol (methodSymbol uri cname a)).get_symbols_by_uri u
          = st'.get_symbols_by_uri u ++ [] := by
      intro st' a
      rw [get_symbols_by_uri_add]
      simp [methodSymbol, h]
    rw [get_foldl_accum _ _ u hstep l st, flatten_map_nil]
    simp [h]

theorem cls_step_get (uri u : String) (cls : ClassInfo) (acc : SymbolTable) :
    (cls.methods.foldl (fun acc2 m => acc2.add_symbol (methodSymbol uri cls.name m))
        (acc.add_symbol (clsSymbol uri cls))).get_symbols_by_uri u
      = acc.get_symbols_by_uri u
        ++ (if u = uri
            then clsSymbol uri cls :: cls.methods.map (methodSymbol uri cls.name)
            else []) := by
  rw [method_fold_get, get_symbols_by_uri_add]
  by_cases h : u = uri <;> simp [clsSymbol, h]

theorem insertClasses_get (uri u : String) (pr : ParseResult) (st : SymbolTable) :
    (insertClasses uri pr st).get_symbols_by_uri u
      = st.get_symbols_by_uri u
        ++ (if u = uri
            then (pr.classes.map
                   (fun c => clsSymbol uri c :: c.methods.map (methodSymbol uri c.name))).flatten
            else []) := by
  have hstep : ∀ (st' : SymbolTable) (cls : ClassInfo),
      (cls.methods.foldl (fun acc2 m => acc2.add_symbol (methodSymbol uri cls.name m))
          (st'.add_symbol (clsSymbol uri cls))).get_symbols_by_uri u
        = st'.get_symbols_by_uri u
          ++ (if u = uri
              then clsSymbol uri cls :: cls.methods.map (methodSymbol uri cls.name)
              else []) := by
    intro st' cls
    exact cls_step_get uri u cls st'
  rw [insertClasses, get_foldl_accum _ _ u hstep pr.classes st]
  by_cases h : u = uri
  · subst h
    simp
  · simp only [if_neg h]
    rw [flatten_map_nil]

theorem insertProps_get (uri u : String) (cls : ClassInfo) (st : SymbolTable) :
    (insertProps uri cls st).get_symbols_by_uri u
      = st.get_symbols_by_uri u
        ++ (if u = uri then cls.properties.map (propSymbol uri cls) else []) := by
  by_cases h : u = uri
  · subst h
    have hstep : ∀ (st' : SymbolTable) (p : String),
        (st'.add_symbol (propSymbol u cls p)).get_symbols_by_uri u
          = st'.get_symbols_by_uri u ++ [propSymbol u cls p] := by
      intro st' p
      rw [get_symbols_by_uri_add]
      simp [propSymbol]
    rw [insertProps, get_foldl_accum _ _ u hstep cls.properties st, flatten_map_singleton]
    simp
  · have hstep : ∀ (st' : SymbolTable) (p : String),
        (st'.add_symbol (propSymbol uri cls p)).get_symbols_by_uri u
          = st'.get_symbols_by_uri u ++ [] := by
      intro st' p
      rw [get_symbols_by_uri_add]
      simp [propSymbol, h]
    rw [insertProps, get_foldl_accum _ _ u hstep cls.properties st, flatten_map_nil]
    simp [h]

theorem insertFunctions_hashes (uri : String) (pr : ParseResult) (st : SymbolTable) :
    (insertFunctions uri pr st).file_hashes = st.file_hashes := by
  unfold insertFunctions
  refine foldl_fix _ SymbolTable.file_hashes ?_ pr.functions st
  intro b a
  rfl

theorem insertClasses_hashes (uri : String) (pr : ParseResult) (st : SymbolTable) :
    (insertClasses uri pr st).file_hashes = st.file_hashes := by
  unfold insertClasses
  refine foldl_fix _ SymbolTable.file_hashes ?_ pr.classes st
  intro b cls
  refine foldl_fix _ SymbolTable.file_hashes ?_ cls.methods (b.add_symbol (clsSymbol uri cls))
  intro b' m
  rfl

theorem insertProps_hashes (uri : String) (cls : ClassInfo) (st : SymbolTable) :
    (insertProps uri cls st).file_hashes = st.file_hashes := by
  unfold insertProps
  refine foldl_fix _ SymbolTable.file_hashes ?_ cls.properties st
  intro b a
  rfl

theorem insertPhase_get_self (uri : String) (pr : ParseResult) (st2 : SymbolTable) :
    ((insertPhase uri pr st2).1).get_symbols_by_uri uri
      = st2.get_symbols_by_uri uri ++ insertedSymbols uri pr := by
  unfold insertPhase insertedSymbols
  cases hL : pr.classes.getLast? with
  | none => rw [insertClasses_get, insertFunctions_get]; simp
  | some cls =>
    rw [insertProps_get, insertClasses_get, insertFunctions_get]; simp

theorem insertPhase_get_ne (uri u : String) (pr : ParseResult) (st2 : SymbolTable)
    (h : u ≠ uri) :
    ((insertPhase uri pr st2).1).get_symbols_by_uri u = st2.get_symbols_by_uri u := by
  unfold insertPhase
  cases hL : pr.classes.getLast? with
  | none => rw [insertClasses_get, insertFunctions_get]; simp [h]
  | some cls => rw [insertProps_get, insertClasses_get, insertFunctions_get]; simp [h]

theorem insertPhase_hashes (uri : String) (pr : ParseResult) (st2 : SymbolTable) :
    ((insertPhase uri pr st2).1).file_hashes = st2.file_hashes := by
  unfold insertPhase
  cases hL : pr.classes.getLast? with
  | none => rw [insertClasses_hashes, insertFunctions_hashes]
  | some cls => rw [insertProps_hashes, insertClasses_hashes, insertFunctions_hashes]

theorem upsert_skip (st : SymbolTable) (uri c : String) (pr : ParseResult)
    (heq : dictGet st.file_hashes uri = some (hash_content c)) :
    st.update_from_parse_result uri c pr = (st, false) := by
  unfold SymbolTable.update_from_parse_result
  rw [if_pos heq]

theorem upsert_accept_get (st : SymbolTable) (uri c : String) (pr : ParseResult)
    (hne : ¬ dictGet st.file_hashes uri = some (hash_content c)) :
    ((st.update_from_parse_result uri c pr).1).get_symbols_by_uri uri
      = insertedSymbols uri pr := by
  unfold SymbolTable.update_from_parse_result
  rw [if_neg hne, insertPhase_get_self]
  have hmid :
      ({ (st.remove_symbols_by_uri uri).1 with
         file_hashes :=
           dictSet ((st.remove_symbols_by_uri uri).1).file_hashes uri
             (hash_content c) } : SymbolTable).get_symbols_by_uri uri
        = ((st.remove_symbols_by_uri uri).1).get_symbols_by_uri uri := rfl
  rw [hmid, remove_get_self]
  simp

theorem upsert_hash (st : SymbolTable) (uri c : String) (pr : ParseResult) :
    dictGet ((st.update_from_parse_result uri c pr).1).file_hashes uri
      = some (hash_content c) := by
  unfold SymbolTable.update_from_parse_result
  by_cases h : dictGet st.file_hashes uri = some (hash_content c)
  · rw [if_pos h]
    exact h
  · rw [if_neg h, insertPhase_hashes]
    exact dictGet_dictSet_self _ _ _

theorem upsert_other_get (st : SymbolTable) (uri c : String) (pr : ParseResult)
    (u : String) (hu : u ≠ uri) :
    ((st.update_from_parse_result uri c pr).1).get_symbols_by_uri u
      = st.get_symbols_by_uri u := by
  unfold SymbolTable.update_from_parse_result
  by_cases h : dictGet st.file_hashes uri = some (hash_content c)
  · rw [if_pos h]
  · rw [if_neg h, insertPhase_get_ne _ _ _ _ hu]
    have hmid :
        ({ (st.remove_symbols_by_uri uri).1 with
           file_hashes :=
             dictSet ((st.remove_symbols_by_uri uri).1).file_hashes uri
               (hash_content c) } : SymbolTable).get_symbols_by_uri u
          = ((st.remove_symbols_by_uri uri).1).get_symbols_by_uri u := rfl
    rw [hmid, remove_get_ne _ _ _ hu]

theorem upsert_other_hash (st : SymbolTable) (uri c : String) (pr : ParseResult)
    (u : String) (hu : u ≠ uri) :
    dictGet ((st.update_from_parse_result uri c pr).1).file_hashes u
      = dictGet st.file_hashes u := by
  unfold SymbolTable.update_from_parse_result
  by_cases h : dictGet st.file_hashes uri = some (hash_content c)
  · rw [if_pos h]
  · rw [if_neg h, insertPhase_hashes]
    simp only []
    rw [dictGet_dictSet_ne _ _ _ _ hu, remove_hash_ne _ _ _ hu]

theorem tracks_step (st : SymbolTable) (uri : String)
    (p : Option String × Option ParseResult) (c : String × String × ParseResult)
    (h : TracksUri st uri p) :
    TracksUri ((st.update_from_parse_result c.1 c.2.1 c.2.2).1) uri (acceptedStep uri p c) := by
  obtain ⟨h1, h2⟩ := h
  obtain ⟨u', cc, pr⟩ := c
  unfold acceptedStep
  by_cases hc : u' = uri
  · subst hc
    by_cases hs : p.1 = some (hash_content cc)
    · have heq : dictGet st.file_hashes u' = some (hash_content cc) := h1.trans hs
      rw [upsert_skip st u' cc pr heq]
      simp only [if_pos rfl, if_pos hs]
      exact ⟨h1, h2⟩
    · have hne : ¬ dictGet st.file_hashes u' = some (hash_content cc) := by
        rw [h1]; exact hs
      constructor
      · simp only [if_pos rfl, if_neg hs]
        exact upsert_hash st u' cc pr
      · simp only [if_pos rfl, if_neg hs]
        exact upsert_accept_get st u' cc pr hne
  · have hc' : uri ≠ u' := fun hh => hc hh.symm
    simp only [if_neg hc]
    constructor
    · rw [upsert_other_hash st u' cc pr uri hc']
      exact h1
    · rw [upsert_other_get st u' cc pr uri hc']
      exact h2

theorem tracks_fold (calls : List (String × String × ParseResult)) (uri : String) :
    ∀ (st : SymbolTable) (p : Option String × Option ParseResult),
      TracksUri st uri p →
      TracksUri (applyUpserts st calls) uri (lastAcceptedFrom p calls uri) := by
  induction calls with
  | nil => intro st p h; exact h
  | cons c t ih =>
    intro st p h
    have hstep := tracks_step st uri p c h
    unfold applyUpserts lastAcceptedFrom at ih ⊢
    rw [List.foldl_cons, List.foldl_cons]
    exact ih _ _ hstep

/-- C1: after any sequence of `UpsertFile` calls starting from an empty
index, `SymbolsInFile uri` is exactly the symbol list derived from the most
recently accepted extraction for `uri` (never a mix of two extractions);
in particular, upserting `c1` and then `c2 ≠ c1` for the same `uri` leaves
exactly the symbols derived from the second extraction. -/
theorem upsert_atomic_replacement :
    (∀ (calls : List (String × String × ParseResult)) (uri : String),
        (applyUpserts SymbolTable.empty calls).get_symbols_by_uri uri
          = lastAcceptedSymbols calls uri)
    ∧ (∀ (st : SymbolTable) (uri c1 c2 : String) (pr1 pr2 : ParseResult),
        c2 ≠ c1 →
        ((((st.update_from_parse_result uri c1 pr1).1).update_from_parse_result
            uri c2 pr2).1).get_symbols_by_uri uri
          = insertedSymbols uri pr2) := by
  constructor
  · intro calls uri
    have hinit : TracksUri SymbolTable.empty uri (none, none) := ⟨rfl, rfl⟩
    have h := tracks_fold calls uri SymbolTable.empty (none, none) hinit
    exact h.2
  · intro st uri c1 c2 pr1 pr2 hcc
    have h1 := upsert_hash st uri c1 pr1
    have hne : ¬ dictGet ((st.update_from_parse_result uri c1 pr1).1).file_hashes uri
        = some (hash_content c2) := by
      rw [h1]
      intro heq
      exact hcc (Option.some.inj heq).symm
    exact upsert_accept_get _ uri c2 pr2 hne

/-- Witness for C1: a concrete two-call replacement; the second upsert's
symbols fully replace the first's. -/
theorem upsert_atomic_replacement_witness :
    ((((SymbolTable.empty.update_from_parse_result "file:///w.m" "aa" prW1).1).update_from_parse_result
        "file:///w.m" "bb" prW2).1).get_symbols_by_uri "file:///w.m"
      = insertedSymbols "file:///w.m" prW2 :=
  upsert_atomic_replacement.2 SymbolTable.empty "file:///w.m" "aa" "bb" prW1 prW2
    (by decide)

/-- C2: upserting the same content twice in a row is idempotent — the
second call returns immediately with the state unchanged, so
`SymbolsInFile` and the total symbol count are identical after it. -/
theorem upsert_idempotent (st : SymbolTable) (uri c : String) (pr : ParseResult) :
    (((st.update_from_parse_result uri c pr).1).update_from_parse_result uri c pr
        = ((st.update_from_parse_result uri c pr).1, false))
    ∧ ((((st.update_from_parse_result uri c pr).1).update_from_parse_result uri c pr).1.get_symbols_by_uri uri
        = ((st.update_from_parse_result uri c pr).1).get_symbols_by_uri uri)
    ∧ ((((st.update_from_parse_result uri c pr).1).update_from_parse_result uri c pr).1.get_all_symbols.length
        = ((st.update_from_parse_result uri c pr).1).get_all_symbols.length) := by
  have hskip :=
    upsert_skip ((st.update_from_parse_result uri c pr).1) uri c pr
      (upsert_hash st uri c pr)
  refine ⟨hskip, ?_, ?_⟩ <;> rw [hskip]

theorem insertedSymbols_kind (uri : String) (pr : ParseResult) (s : Symbol)
    (hs : s ∈ insertedSymbols uri pr) :
    s.kind = "function" ∨ s.kind = "class" ∨ s.kind = "method" ∨ s.kind = "property" := by
  unfold insertedSymbols at hs
  rcases List.mem_append.mp hs with h | h
  · rcases List.mem_append.mp h with h1 | h1
    · obtain ⟨f, hf, rfl⟩ := List.mem_map.mp h1
      left; rfl
    · rcases List.mem_flatten.mp h1 with ⟨l, hl, hsl⟩
      obtain ⟨cls, hcls, rfl⟩ := List.mem_map.mp hl
      rcases List.mem_cons.mp hsl with rfl | hm
      · right; left; rfl
      · obtain ⟨m, hm2, rfl⟩ := List.mem_map.mp hm
        right; right; left; rfl
  · cases hL : pr.classes.getLast? with
    | none => rw [hL] at h; simp at h
    | some cls =>
      rw [hL] at h
      obtain ⟨p, hp, rfl⟩ := List.mem_map.mp h
      right; right; right; rfl

/-- C3 counterexample: an accepted upsert whose extraction contains one
qualifying (global) `VariableRecord` leaves the index with no symbol of
kind `variable` at all — neither `SymbolsInFile` nor `FindByName` can
observe one. -/
theorem upsert_variable_missing_cex :
    prVar.«variables».map VariableInfo.is_global = [true]
    ∧ ((((SymbolTable.empty.update_from_parse_result "file:///v.m" "global counter" prVar).1).get_symbols_by_uri
          "file:///v.m").filter (fun s => s.kind = "variable")) = []
    ∧ (((SymbolTable.empty.update_from_parse_result "file:///v.m" "global counter" prVar).1).search_symbols
         "counter" none none) = [] := by
  decide

/-- C3 amended: `UpsertFile` never inserts symbols of kind `variable`; the
extraction's `VariableRecord`s are ignored by the index, so a file whose
symbols contained no variable-kind symbols before an upsert contains none
after it. -/
theorem upsert_inserts_no_variables (st : SymbolTable) (uri c : String)
    (pr : ParseResult)
    (h0 : ∀ t ∈ st.get_symbols_by_uri uri, t.kind ≠ "variable") :
    ∀ s ∈ ((st.update_from_parse_result uri c pr).1).get_symbols_by_uri uri,
      s.kind ≠ "variable" := by
  intro s hs
  by_cases h : dictGet st.file_hashes uri = some (hash_content c)
  · rw [upsert_skip st uri c pr h] at hs
    exact h0 s hs
  · rw [upsert_accept_get st uri c pr h] at hs
    rcases insertedSymbols_kind uri pr s hs with hk | hk | hk | hk <;> rw [hk] <;> decide

/-- Witness for the amended C3: the concrete class symbol inserted for
`prVar` is not a variable symbol. -/
theorem upsert_inserts_no_variables_witness :
    (clsSymbol "file:///v.m" { name := "Helper" }).kind ≠ "variable" :=
  upsert_inserts_no_variables SymbolTable.empty "file:///v.m" "global counter" prVar
    (by decide) (clsSymbol "file:///v.m" { name := "Helper" }) (by decide)

/-- C4: with two classes where only the first has a property, the accepted
upsert indexes no property symbol at all — the property loop runs outside
the class loop and reads only the final class (`Baz`, which has none), so
`Bar` of `Foo` is dropped, contradicting one-property-symbol-per-class. -/
theorem property_symbols_last_class_only_cex :
    prTwoClasses.classes.map ClassInfo.properties = [["Bar"], []]
    ∧ ((((SymbolTable.empty.update_from_parse_result "file:///two.m" "src" prTwoClasses).1).get_symbols_by_uri
          "file:///two.m").filter (fun s => s.kind = "property")) = []
    ∧ (((SymbolTable.empty.update_from_parse_result "file:///two.m" "src" prTwoClasses).1).search_symbols
         "Bar" none (some "property")) = [] := by
  decide

/-- C5 counterexample: for the spec's round-trip record
`add(x, y) -> y`, the indexed function symbol's detail is
`"function add(x, y)"`, not the claimed `"y = add(x, y)"`. -/
theorem function_detail_format_cex :
    ((((SymbolTable.empty.update_from_parse_result "file:///add.m" "function y = add(x, y)" prAdd).1).get_symbols_by_uri
        "file:///add.m").map Symbol.detail) = ["function add(x, y)"]
    ∧ ¬ ("function add(x, y)" = "y = add(x, y)") := by
  decide

/-- C5 amended: the detail of every inserted function symbol is
`function <name>`, with the comma-joined input list in parentheses when
inputs exist, and with the bracketed output list and an equals sign
prepended only when the record has two or more outputs. -/
theorem function_detail_amended (uri : String) (f : FunctionInfo) :
    (fnSymbol uri f).detail = amendedFunctionDetailSpec f := by
  show functionDetail f = amendedFunctionDetailSpec f
  unfold functionDetail amendedFunctionDetailSpec joinComma
  by_cases h1 : f.input_args.isEmpty
  · by_cases h2 : f.output_args.length > 1
    · have h2' : 2 ≤ f.output_args.length := h2
      simp [h1, h2, h2', String.append_assoc, String.append_empty, String.empty_append]
    · have h2' : ¬ 2 ≤ f.output_args.length := h2
      simp [h1, h2, h2', String.append_assoc, String.append_empty, String.empty_append]
  · by_cases h2 : f.output_args.length > 1
    · have h2' : 2 ≤ f.output_args.length := h2
      simp [h1, h2, h2', String.append_assoc, String.append_empty, String.empty_append]
    · have h2' : ¬ 2 ≤ f.output_args.length := h2
      simp [h1, h2, h2', String.append_assoc, String.append_empty, String.empty_append]

/-- C6: the end marker does not pop the nesting stack — the stacks are
never popped, only the counter decrements, and `current_function` is
restored to the stale stack top.  For two consecutive top-level functions
each closed by `end`, the second record is therefore marked nested with
the first as parent, and its indexed symbol gets scope `"f"` instead of
`"global"` (and `is_global = false`). -/
theorem end_marker_stale_stack_cex :
    ((parse_content twoFnsSrc "file:///t.m" "t.m").functions.map
        (fun f => (f.name, f.is_nested, f.parent_function)))
      = [("f", false, none), ("g", true, some "f")]
    ∧ ((((SymbolTable.empty.update_from_parse_result "file:///t.m" twoFnsSrc
            (parse_content twoFnsSrc "file:///t.m" "t.m")).1).get_symbols_by_uri
          "file:///t.m").map (fun s => (s.name, s.scope, s.is_global)))
      = [("f", "global", true), ("g", "f", false)] := by
  decide

/-- C7: while a class is open, *every* line whose first non-blank
character starts a word is collected as a property name — including the
structural `properties` marker line and the `end` lines — so the class
`Foo` with the single property `Bar` is recorded with property list
`["properties", "Bar", "end", "end"]`. -/
theorem property_collects_structural_lines_cex :
    ((parse_content classSrc "file:///c.m" "c.m").classes.map
        (fun c => (c.name, c.properties)))
      = [("Foo", ["properties", "Bar", "end", "end"])] := by
  decide

theorem mem_search_exists (st : SymbolTable) (q : String) (u k : Option String)
    (s : Symbol) (hs : s ∈ st.search_symbols q u k) :
    ∃ kv ∈ st.symbols, s ∈ kv.2 := by
  unfold SymbolTable.search_symbols at hs
  rcases (mem_foldl_append _ st.symbols [] s).mp hs with h | ⟨kv, hkv, hsf⟩
  · simp at h
  · exact ⟨kv, hkv, (List.mem_filter.mp hsf).1⟩

theorem startsWith_key (uri a b : String) :
    startsWithStr (uri ++ ":" ++ a ++ ":" ++ b) (uri ++ ":") = true := by
  have h : uri ++ ":" ++ a ++ ":" ++ b = (uri ++ ":") ++ (a ++ (":" ++ b)) := by
    rw [String.append_assoc, String.append_assoc]
  rw [h]
  exact startsWithStr_append _ _

/-- C8 counterexample: an upsert of an extraction with no functions and no
classes stores the content hash but inserts no symbols (the property-loop
`NameError` aside, the mutations stand); `RemoveFile` on that state hits
the early return, reports 0 and leaves the stored hash in place — the
claim says the stored hash is deleted even when zero symbols are indexed. -/
theorem remove_file_keeps_hash_cex :
    ((SymbolTable.empty.update_from_parse_result "file:///z.m" "x = 1" prNoSymbols).1).get_symbols_by_uri
        "file:///z.m" = []
    ∧ dictGet (((((SymbolTable.empty.update_from_parse_result "file:///z.m" "x = 1"
            prNoSymbols).1).remove_symbols_by_uri "file:///z.m").1).file_hashes)
        "file:///z.m" = some (hash_content "x = 1") := by
  decide

/-- C8 amended: `RemoveFile` empties `SymbolsInFile`, and deletes the
stored hash whenever the file has at least one indexed symbol; after it,
`FindByName` returns no symbol of that file; when the file has no indexed
symbols the call is an early-return no-op (count 0, any stored hash kept). -/
theorem remove_file_amended (st : SymbolTable) (uri : String) (hinv : SymbolInv st) :
    ((st.remove_symbols_by_uri uri).1).get_symbols_by_uri uri = []
    ∧ (st.get_symbols_by_uri uri ≠ [] →
        dictGet ((st.remove_symbols_by_uri uri).1).file_hashes uri = none)
    ∧ (∀ (q : String) (k : Option String) (s : Symbol),
        s ∈ ((st.remove_symbols_by_uri uri).1).search_symbols q none k → s.uri ≠ uri)
    ∧ (dictGet st.uri_to_symbols uri = none → st.remove_symbols_by_uri uri = (st, 0)) := by
  refine ⟨remove_get_self st uri, ?_, ?_, ?_⟩
  · intro hne
    cases h : dictGet st.uri_to_symbols uri with
    | none =>
      unfold SymbolTable.get_symbols_by_uri at hne
      rw [h] at hne
      simp at hne
    | some l =>
      unfold SymbolTable.remove_symbols_by_uri
      rw [h]
      exact dictGet_dictDel_self _ _
  · intro q k s hs heq
    cases h : dictGet st.uri_to_symbols uri with
    | none =>
      unfold SymbolTable.remove_symbols_by_uri at hs
      rw [h] at hs
      obtain ⟨kv, hkv, hsm⟩ := mem_search_exists _ _ _ _ _ hs
      have hent := hinv.2 kv hkv s hsm
      rw [heq] at hent
      exact hent h
    | some l =>
      unfold SymbolTable.remove_symbols_by_uri at hs
      rw [h] at hs
      obtain ⟨kv, hkv, hsm⟩ := mem_search_exists _ _ _ _ _ hs
      have hfil : kv ∈ st.symbols.filter (fun kv => !startsWithStr kv.1 (uri ++ ":")) := hkv
      obtain ⟨hmem, hp⟩ := List.mem_filter.mp hfil
      have hkey := hinv.1 kv hmem s hsm
      rw [heq] at hkey
      rw [hkey, startsWith_key] at hp
      simp at hp
  · intro h
    unfold SymbolTable.remove_symbols_by_uri
    rw [h]

/-- Witness for the amended C8: removing a file with one indexed symbol
deletes its stored hash. -/
theorem remove_file_amended_witness :
    dictGet (((stW8.remove_symbols_by_uri "file:///w8.m").1).file_hashes)
        "file:///w8.m" = none :=
  (remove_file_amended stW8 "file:///w8.m" ⟨by decide, by decide⟩).2.1 (by decide)

/-- C9 counterexample: the single entry recorded in `errors` on a read
failure is a dict `{"error": message}`, not a string. -/
theorem read_error_dict_entry_cex :
    ((parse_file SymbolTable.empty (Except.error "disk unavailable") "file:///e.m"
          "e.m").1.errors).map PyVal.isStr = [false] := by
  decide

/-- C9 amended: a failing source read yields a result whose `errors` list
holds exactly one entry — the dict `{"error": "Failed to read file: <e>"}`
— with every other collection empty and the symbol table untouched;
extraction itself is total, so no exception crosses the boundary. -/
theorem read_error_amended (st : SymbolTable) (e uri path : String) :
    parse_file st (Except.error e) uri path
      = ({ file_uri := uri, file_path := path, functions := [],
           «variables» := [], classes := [], comments := [],
           errors := [PyVal.dict [("error", "Failed to read file: " ++ e)]],
           raw_content := "", function_tree := [] }, st) := rfl

/-- C10: after `Set(k, v, ttl)` at time `t0`, a `Get(k)` at time `now`
returns `v` while the ttl has not elapsed and is a miss once it has
elapsed (strictly), with the expired entry removed and counted as an
eviction on that very touch — expiry is evaluated lazily on `Get`, with no
background sweep. -/
theorem cache_ttl_lazy (cm : CacheManager) (k v : String) (ttl t0 now : ℚ) :
    (now - t0 ≤ ttl → ((cm.set t0 k v (some ttl)).get now k).2 = some v)
    ∧ (now - t0 > ttl →
        ((cm.set t0 k v (some ttl)).get now k).2 = none
        ∧ dictGet (((cm.set t0 k v (some ttl)).get now k).1).cache k = none
        ∧ (((cm.set t0 k v (some ttl)).get now k).1).evictions = cm.evictions + 1) := by
  have hget : dictGet (cm.set t0 k v (some ttl)).cache k
      = some { value := v, timestamp := t0, ttl := ttl, size := v.length } := by
    unfold CacheManager.set
    exact dictGet_dictSet_self _ _ _
  constructor
  · intro h
    have hexp : is_expired now
        { value := v, timestamp := t0, ttl := ttl, size := v.length } = false := by
      unfold is_expired
      exact decide_eq_false (not_lt.mpr h)
    unfold CacheManager.get
    rw [hget]
    simp [hexp]
  · intro h
    have hexp : is_expired now
        { value := v, timestamp := t0, ttl := ttl, size := v.length } = true := by
      unfold is_expired
      exact decide_eq_true h
    have hinv : (cm.set t0 k v (some ttl)).invalidate k
        = ({ (cm.set t0 k v (some ttl)) with
             cache := dictDel (cm.set t0 k v (some ttl)).cache k,
             evictions := (cm.set t0 k v (some ttl)).evictions + 1 }, true) := by
      unfold CacheManager.invalidate
      rw [hget]
      simp
    have hev : (cm.set t0 k v (some ttl)).evictions = cm.evictions := rfl
    unfold CacheManager.get
    rw [hget]
    simp [hexp, hinv, dictGet_dictDel_self, hev]

/-- Witness for C10: a concrete entry with ttl 300 set at time 0 is a hit
at time 300 and a miss at time 301. -/
theorem cache_ttl_lazy_witness :
    ((CacheManager.empty.set 0 "parse:file:///a.m:h1" "result" (some 300)).get 300
        "parse:file:///a.m:h1").2 = some "result"
    ∧ ((CacheManager.empty.set 0 "parse:file:///a.m:h1" "result" (some 300)).get 301
        "parse:file:///a.m:h1").2 = none :=
  ⟨(cache_ttl_lazy CacheManager.empty "parse:file:///a.m:h1" "result" 300 0 300).1
      (by norm_num),
   ((cache_ttl_lazy CacheManager.empty "parse:file:///a.m:h1" "result" 300 0 301).2
      (by norm_num)).1⟩

end MatlabLsp
